import Mathlib

/-!
Include/internal/pycore_code.h : quickening caches, warmup counter, locals-plus kinds

A shallow embedding of the inline functions and layout declarations of
`pycore_code.h`, followed by theorems about them.

Conventions of the embedding

* A C `int` value is an `Int` in `[INT_MIN, INT_MAX]`; the result of an `int`
  operation is brought back into that range by `wrapInt` (two's complement,
  32 bits), so overflow is visible in the model.
* A pointer is a byte address in `[0, 2^64)` and a `Py_ssize_t` a 64-bit signed
  integer; `p[i]` on a pointer to `T` is the address `p + i * sizeof(T)`
  reduced modulo 2^64 by `wrapAddr`, so a computed address never leaves the
  address space.
* Type layouts are computed from the member lists by the usual rules
  (members at the next multiple of their alignment, total size a multiple of
  the largest alignment).
-/

namespace PyCoreCode

/-! ## C integers -/

/-- Smallest value of a C `int` (32 bits). -/
def INT_MIN : Int := -2147483648

/-- Largest value of a C `int` (32 bits). -/
def INT_MAX : Int := 2147483647

/-- The values a C `int` can hold. -/
def isInt (x : Int) : Prop := INT_MIN ≤ x ∧ x ≤ INT_MAX

instance (x : Int) : Decidable (isInt x) := by
  unfold isInt; exact inferInstance

/-- Result of an `int` computation whose exact value is `x`: reduced modulo
2^32 into `[INT_MIN, INT_MAX]`. It is `x` itself exactly when `x` did not
overflow. -/
def wrapInt (x : Int) : Int := (x + 2147483648) % 4294967296 - 2147483648

/-- Smallest value of a `Py_ssize_t` (64 bits). -/
def PY_SSIZE_T_MIN : Int := -9223372036854775808

/-- Largest value of a `Py_ssize_t` (64 bits). -/
def PY_SSIZE_T_MAX : Int := 9223372036854775807

/-- The values a `Py_ssize_t` can hold. -/
def isSsize (x : Int) : Prop := PY_SSIZE_T_MIN ≤ x ∧ x ≤ PY_SSIZE_T_MAX

instance (x : Int) : Decidable (isSsize x) := by
  unfold isSsize; exact inferInstance

/-- Result of a `Py_ssize_t` computation whose exact value is `x`: reduced
modulo 2^64 into `[PY_SSIZE_T_MIN, PY_SSIZE_T_MAX]`. -/
def wrapSsize (x : Int) : Int :=
  (x + 9223372036854775808) % 18446744073709551616 - 9223372036854775808

/-- The byte addresses of the 64-bit address space. -/
def isAddr (p : Int) : Prop := 0 ≤ p ∧ p < 18446744073709551616

instance (p : Int) : Decidable (isAddr p) := by
  unfold isAddr; exact inferInstance

/-- Result of an address computation whose exact value is `x`: reduced modulo
2^64 into the address space. -/
def wrapAddr (x : Int) : Int := x % 18446744073709551616

/-! ## Type layouts -/

/-- Size and alignment of a C type, in bytes. -/
structure Layout where
  size : Nat
  align : Nat
deriving DecidableEq, Repr

/-- Round `n` up to the next multiple of `a`. -/
def roundUp (n a : Nat) : Nat := (n + a - 1) / a * a

def uint8_t : Layout := ⟨1, 1⟩
def uint16_t : Layout := ⟨2, 2⟩
def int32_t : Layout := ⟨4, 4⟩

/-- Offset reached after laying out `fields` one after another from `off`. -/
def structEnd (off : Nat) : List Layout → Nat
  | [] => off
  | f :: fs => structEnd (roundUp off f.align + f.size) fs

/-- Largest alignment among `ms` (1 for an empty list). -/
def maxAlign (ms : List Layout) : Nat := ms.foldl (fun a m => max a m.align) 1

/-- Largest size among `ms`. -/
def maxSize (ms : List Layout) : Nat := ms.foldl (fun a m => max a m.size) 0

/-- Layout of `struct { fields }`. -/
def structLayout (fields : List Layout) : Layout :=
  ⟨roundUp (structEnd 0 fields) (maxAlign fields), maxAlign fields⟩

/-- Layout of `union { members }`; every member is at offset 0. -/
def unionLayout (members : List Layout) : Layout :=
  ⟨roundUp (maxSize members) (maxAlign members), maxAlign members⟩

/-- Layout of `T[n]`. -/
def arrayLayout (elem : Layout) (n : Nat) : Layout := ⟨elem.size * n, elem.align⟩

/-- Layout of `struct { int32_t cache_count; int32_t _; }`. -/
def _PyEntryZero : Layout := structLayout [int32_t, int32_t]

/-- Layout of `struct { uint8_t original_oparg; uint8_t counter; uint16_t index; }`. -/
def _PyAdaptiveEntry : Layout := structLayout [uint8_t, uint8_t, uint16_t]

/-- Layout of `union { _PyEntryZero zero; _PyAdaptiveEntry adaptive; }`. -/
def SpecializedCacheEntry : Layout := unionLayout [_PyEntryZero, _PyAdaptiveEntry]

/-- Modelled from the spec: the instruction unit `_Py_CODEUNIT`, whose typedef
is outside this header; an instruction unit is 2 bytes, a quarter of a cache
entry. -/
def _Py_CODEUNIT : Layout := uint16_t

/-- The macro `sizeof(SpecializedCacheEntry)/sizeof(_Py_CODEUNIT)`. -/
def INSTRUCTIONS_PER_ENTRY : Nat := SpecializedCacheEntry.size / _Py_CODEUNIT.size

def MAX_SIZE_TO_QUICKEN : Nat := 5000

/-- Layout of `union { _Py_CODEUNIT code[1]; SpecializedCacheEntry entry; }`. -/
def SpecializedCacheOrInstruction : Layout :=
  unionLayout [arrayLayout _Py_CODEUNIT 1, SpecializedCacheEntry]

/-! ## Cache addressing -/

/-- Address of `p[i]` for a pointer `p` to objects of layout `t`. -/
def ptrIndex (t : Layout) (p : Int) (i : Int) : Int := wrapAddr (p + i * (t.size : Int))

/-- The condition of the `assert` in `_GetSpecializedCacheEntry`:
`&last_cache_plus_one->code[0] == first_instr`, where `code` is a union member
(offset 0) and `code[0]` its first element. -/
def _GetSpecializedCacheEntry_assert (first_instr : Int) : Bool :=
  let last_cache_plus_one := first_instr
  ptrIndex _Py_CODEUNIT (last_cache_plus_one + 0) 0 == first_instr

/-- The function `_GetSpecializedCacheEntry(first_instr, n)`:
`&last_cache_plus_one[-1-n].entry`, with `entry` a union member (offset 0).
`n` is a `Py_ssize_t`, and `-1-n` is computed in that type. -/
def _GetSpecializedCacheEntry (first_instr : Int) (n : Int) : Int :=
  let last_cache_plus_one := first_instr
  ptrIndex SpecializedCacheOrInstruction last_cache_plus_one (wrapSsize (-1 - n)) + 0

/-- The function `oparg_from_offset_and_nexti(offset, nexti)`:
`offset-(nexti>>1)` in `int`. -/
def oparg_from_offset_and_nexti (offset nexti : Int) : Int :=
  wrapInt (offset - (nexti >>> (1 : Nat)))

/-- The function `offset_from_oparg_and_nexti(oparg, nexti)`:
`(nexti>>1)+oparg` in `int`. -/
def offset_from_oparg_and_nexti (oparg nexti : Int) : Int :=
  wrapInt ((nexti >>> (1 : Nat)) + oparg)

/-- The function `_GetSpecializedCacheEntryForInstruction(first_instr, nexti, oparg)`.
The `int` offset is converted to `Py_ssize_t` unchanged. -/
def _GetSpecializedCacheEntryForInstruction (first_instr : Int) (nexti oparg : Int) : Int :=
  _GetSpecializedCacheEntry first_instr (offset_from_oparg_and_nexti oparg nexti)

/-! ## Warmup counter -/

def QUICKENING_WARMUP_DELAY : Int := 8

/-- The macro `(-QUICKENING_WARMUP_DELAY)`. -/
def QUICKENING_INITIAL_WARMUP_VALUE : Int := -QUICKENING_WARMUP_DELAY

def QUICKENING_WARMUP_COLDEST : Int := 1

/-- Modelled from the spec: the code object, `struct PyCodeObject`, which is
declared outside this header. It owns its instructions, constants, names,
locals-plus table, warmup counter and, once allocated, its cache block.
Object references are addresses; `co_warmup` is the signed warmup counter, a C
`int` like the `int` constant that initialises it. -/
structure PyCodeObject where
  co_code : Nat
  co_consts : Nat
  co_names : Nat
  co_localsplusnames : Nat
  co_localspluskinds : Option Nat
  co_warmup : Int
  co_quickened : Option Nat
deriving DecidableEq, Repr

/-- The function `PyCodeObject_IncrementWarmup(co)`: `co->co_warmup++`, returning
the code object as the call leaves it. -/
def PyCodeObject_IncrementWarmup (co : PyCodeObject) : PyCodeObject :=
  { co with co_warmup := wrapInt (co.co_warmup + 1) }

/-- The function `PyCodeObject_IsWarmedUp(co)`: the `int` value of
`(co->co_warmup == 0)`, together with the code object as the call leaves it. -/
def PyCodeObject_IsWarmedUp (co : PyCodeObject) : Int × PyCodeObject :=
  (if co.co_warmup = 0 then 1 else 0, co)

/-- The code object after `k` successive calls of `PyCodeObject_IncrementWarmup`. -/
def incrementWarmupTimes : Nat → PyCodeObject → PyCodeObject
  | 0, co => co
  | k + 1, co => incrementWarmupTimes k (PyCodeObject_IncrementWarmup co)

/-! ## Locals-plus kinds -/

/-- Layout of `typedef unsigned char _PyLocalsPlusKind`. -/
def _PyLocalsPlusKind : Layout := ⟨1, 1⟩

/-- Exceptions the error indicator can hold. -/
inductive PyExc where
  | MemoryError
  | SystemError
deriving DecidableEq, Repr

/-- The part of the run-time state the allocation helpers act on: the raw
allocator (a stock of `mem_avail` bytes handing out blocks at increasing
addresses), the blocks currently allocated, a log of the requests made to the
allocator and of the blocks given back, the error indicator, and the contents
of memory (which allocation does not initialise). -/
structure PyState where
  mem_avail : Nat
  next_addr : Nat
  live : List (Nat × Nat)
  malloc_calls : List Nat
  free_calls : List Nat
  err : Option PyExc
  mem : Nat → Nat

/-- Modelled from the spec: the raw allocator `PyMem_Malloc(size)`, defined
outside this header. Every call is a request of `size` bytes (a request of 0
bytes is served as 1 byte); it either hands out a fresh block of that size,
returned as `some address`, or fails and returns NULL (`none`) leaving nothing
allocated. -/
def PyMem_Malloc (size : Nat) (s : PyState) : Option Nat × PyState :=
  let bytes := if size = 0 then 1 else size
  let s1 := { s with malloc_calls := size :: s.malloc_calls }
  if bytes ≤ s.mem_avail then
    (some s.next_addr,
      { s1 with mem_avail := s.mem_avail - bytes,
                next_addr := s.next_addr + bytes,
                live := (s.next_addr, bytes) :: s.live })
  else
    (none, s1)

/-- Modelled from the spec: the macro `PyMem_NEW(type, n)`, defined outside this
header: NULL without an allocator call when `n` elements cannot be counted in a
`Py_ssize_t` number of bytes (a negative `n` converts to a huge `size_t`),
otherwise `PyMem_Malloc(n * sizeof(type))`. -/
def PyMem_NEW (type : Layout) (n : Int) (s : PyState) : Option Nat × PyState :=
  if n < 0 ∨ n > PY_SSIZE_T_MAX / (type.size : Int) then (none, s)
  else PyMem_Malloc (n.toNat * type.size) s

/-- Modelled from the spec: `PyErr_NoMemory()`, defined outside this header,
sets the out-of-memory error. -/
def PyErr_NoMemory (s : PyState) : PyState := { s with err := some PyExc.MemoryError }

/-- The function `_PyCode_InitLocalsPlusKinds(num, pkinds)`. `pkinds` is the value
`*pkinds` holds on entry; the result is the returned `int`, the value of
`*pkinds` on return, and the state on return. -/
def _PyCode_InitLocalsPlusKinds (num : Int) (pkinds : Option Nat) (s : PyState) :
    Int × Option Nat × PyState :=
  if num = 0 then
    (0, none, s)
  else
    match PyMem_NEW _PyLocalsPlusKind num s with
    | (none, s1) => (-1, pkinds, PyErr_NoMemory s1)
    | (some kinds, s1) => (0, some kinds, s1)

def CO_FAST_LOCAL : Nat := 0x20
def CO_FAST_CELL : Nat := 0x40
def CO_FAST_FREE : Nat := 0x80

/-- The bitwise-or of the chosen kind flags. -/
def kindOfFlags (isLocal isCell isFree : Bool) : Nat :=
  (if isLocal then CO_FAST_LOCAL else 0) ||| (if isCell then CO_FAST_CELL else 0)
    ||| (if isFree then CO_FAST_FREE else 0)

/-- The kinds a locals-plus entry may have: LOCAL, CELL, LOCAL|CELL or FREE. -/
def isValidKind (kind : Nat) : Bool :=
  kind == CO_FAST_LOCAL || kind == CO_FAST_CELL || kind == (CO_FAST_LOCAL ||| CO_FAST_CELL)
    || kind == CO_FAST_FREE

/-- The entry `kinds[i]` of a kinds table at address `kinds`, read from memory. -/
def kindsEntry (s : PyState) (kinds : Nat) (i : Nat) : Nat :=
  s.mem (kinds + i * _PyLocalsPlusKind.size)

/-- Modelled from the spec: `PyMem_Free(p)` for a non-NULL `p`, defined outside
this header: the call is recorded, and the block at `p` stops being allocated
and goes back to the allocator. -/
def PyMem_Free (p : Nat) (s : PyState) : PyState :=
  { s with free_calls := p :: s.free_calls,
           live := s.live.filter (fun b => b.1 != p),
           mem_avail := s.mem_avail + ((s.live.filter (fun b => b.1 == p)).map Prod.snd).sum }

/-- The function `_PyCode_ClearLocalsPlusKinds(kinds)`, returning the state on
return. -/
def _PyCode_ClearLocalsPlusKinds (kinds : Option Nat) (s : PyState) : PyState :=
  match kinds with
  | some p => PyMem_Free p s
  | none => s

/-! ## Code constructor -/

/-- Run-time types of the objects a constructor record refers to. -/
inductive PyType where
  | unicode
  | bytes
  | tuple
  | other
deriving DecidableEq, Repr

/-- Modelled from the spec: an object reference `PyObject *`, whose type is
declared outside this header: the address of the object, its run-time type
and, when it is an ordered sequence, the types of its items in order. -/
structure PyObject where
  addr : Nat
  ob_type : PyType
  items : List PyType
deriving DecidableEq, Repr

/-- The record `struct _PyCodeConstructor`. -/
structure _PyCodeConstructor where
  filename : PyObject
  name : PyObject
  flags : Int
  code : PyObject
  firstlineno : Int
  linetable : PyObject
  consts : PyObject
  names : PyObject
  localsplusnames : PyObject
  localspluskinds : Option Nat
  argcount : Int
  posonlyargcount : Int
  kwonlyargcount : Int
  stacksize : Int
  exceptiontable : PyObject
deriving DecidableEq, Repr

/-- Number of entries in the locals-plus table of a record: the length of its
names sequence. -/
def localsPlusLength (con : _PyCodeConstructor) : Nat := con.localsplusnames.items.length

/-- Number of LOCAL-kind entries among the first `n` entries of a kinds table
(none in the NULL table). -/
def countLocalKinds (s : PyState) (kinds : Option Nat) (n : Nat) : Nat :=
  match kinds with
  | none => 0
  | some p => ((List.range n).filter (fun i => kindsEntry s p i &&& CO_FAST_LOCAL != 0)).length

/-- An ordered sequence whose items all have type `t`. -/
def isSequenceOf (t : PyType) (o : PyObject) : Bool :=
  o.ob_type == PyType.tuple && o.items.all (fun x => x == t)

/-- Modelled from the spec: `_PyCode_Validate(con)`, which is only declared in
this header. It returns 0 when all the required validations hold and -1
otherwise: `0 <= posonlyargcount <= argcount` and `argcount + kwonlyargcount` at
most the number of LOCAL-kind entries; the name containers are sequences of
strings and the constants container is a sequence; the locals-plus table is
empty exactly when it has no names, and has at least the entries of the
declared arguments; stack size and flags are not negative. -/
def _PyCode_Validate (con : _PyCodeConstructor) (s : PyState) : Int :=
  if (0 ≤ con.posonlyargcount ∧ con.posonlyargcount ≤ con.argcount
        ∧ con.argcount + con.kwonlyargcount
            ≤ (countLocalKinds s con.localspluskinds (localsPlusLength con) : Int))
      ∧ (isSequenceOf PyType.unicode con.names = true
        ∧ isSequenceOf PyType.unicode con.localsplusnames = true
        ∧ con.consts.ob_type = PyType.tuple)
      ∧ ((con.localspluskinds = none ↔ localsPlusLength con = 0)
        ∧ con.argcount + con.kwonlyargcount ≤ (localsPlusLength con : Int))
      ∧ (0 ≤ con.stacksize ∧ 0 ≤ con.flags)
  then 0 else -1

/-- Modelled from the spec: `_PyCode_New(con)`, which is only declared in this
header. A record that fails validation produces no code object (NULL); a
valid one produces a code object that refers to the record's fields, with the
warmup counter at `QUICKENING_INITIAL_WARMUP_VALUE` and no cache block yet. -/
def _PyCode_New (con : _PyCodeConstructor) (s : PyState) : Option PyCodeObject :=
  if _PyCode_Validate con s = 0 then
    some { co_code := con.code.addr, co_consts := con.consts.addr, co_names := con.names.addr,
           co_localsplusnames := con.localsplusnames.addr,
           co_localspluskinds := con.localspluskinds,
           co_warmup := QUICKENING_INITIAL_WARMUP_VALUE, co_quickened := none }
  else none

/-! ## The functions the header defines, as calls on a code object and a state -/

/-- One invocation of the unbiased counter: add 1, saturating at the threshold
`QUICKENING_WARMUP_DELAY`. -/
def unbiasedIncrement (count : Int) : Int :=
  if count < QUICKENING_WARMUP_DELAY then count + 1 else count

/-- The unbiased counter after `k` invocations. -/
def unbiasedIncrementTimes : Nat → Int → Int
  | 0, count => count
  | k + 1, count => unbiasedIncrementTimes k (unbiasedIncrement count)

/-- Eligibility test of the unbiased counter: comparison against the threshold
`QUICKENING_WARMUP_DELAY`. -/
def unbiasedIsWarmedUp (count : Int) : Int :=
  if QUICKENING_WARMUP_DELAY ≤ count then 1 else 0

/-- A freshly built code object: the warmup counter holds
`QUICKENING_INITIAL_WARMUP_VALUE` and no cache block is allocated yet. -/
def coldCode : PyCodeObject :=
  { co_code := 4096, co_consts := 8192, co_names := 12288, co_localsplusnames := 16384,
    co_localspluskinds := none, co_warmup := QUICKENING_INITIAL_WARMUP_VALUE,
    co_quickened := none }

/-- A run-time state with 64 bytes left in the allocator, nothing allocated and
no error set. -/
def smallState : PyState :=
  { mem_avail := 64, next_addr := 65536, live := [], malloc_calls := [], free_calls := [],
    err := none, mem := fun _ => 0 }

/-- A run-time state holding a kinds table of 2 entries at 65536, both LOCAL. -/
def tableState : PyState :=
  { mem_avail := 62, next_addr := 65538, live := [(65536, 2)], malloc_calls := [2],
    free_calls := [], err := none,
    mem := fun a => if a = 65536 ∨ a = 65537 then CO_FAST_LOCAL else 0 }

/-- A constructor record with `argcount=2`, `posonlyargcount=0`,
`kwonlyargcount=0`, `stacksize=4` and a locals-plus table of 2 names whose kinds
are in the table of `tableState`. -/
def twoArgRecord : _PyCodeConstructor :=
  { filename := ⟨256, PyType.unicode, []⟩, name := ⟨512, PyType.unicode, []⟩, flags := 0,
    code := ⟨4096, PyType.bytes, []⟩, firstlineno := 1, linetable := ⟨768, PyType.bytes, []⟩,
    consts := ⟨8192, PyType.tuple, []⟩, names := ⟨12288, PyType.tuple, []⟩,
    localsplusnames := ⟨16384, PyType.tuple, [PyType.unicode, PyType.unicode]⟩,
    localspluskinds := some 65536, argcount := 2, posonlyargcount := 0, kwonlyargcount := 0,
    stacksize := 4, exceptiontable := ⟨1024, PyType.bytes, []⟩ }

/-! ## Auxiliary facts -/

theorem shiftRight_one_eq_div (x : Int) : x >>> (1 : Nat) = x / 2 := by
  rw [Int.shiftRight_eq_div_pow]; rfl

theorem wrapInt_of_isInt (x : Int) (h : isInt x) : wrapInt x = x := by
  unfold isInt INT_MIN INT_MAX at h
  unfold wrapInt
  omega

theorem sizeof_SpecializedCacheOrInstruction : SpecializedCacheOrInstruction.size = 8 := by
  decide

theorem sizeof_SpecializedCacheEntry : SpecializedCacheEntry.size = 8 := by
  decide

theorem _GetSpecializedCacheEntry_wrap (first_instr n : Int) (hn : isSsize n) :
    _GetSpecializedCacheEntry first_instr n = wrapAddr (first_instr - (n + 1) * 8) := by
  unfold isSsize PY_SSIZE_T_MIN PY_SSIZE_T_MAX at hn
  have hindex : wrapSsize (-1 - n) = -1 - n := by
    unfold wrapSsize
    omega
  simp only [_GetSpecializedCacheEntry, ptrIndex, sizeof_SpecializedCacheOrInstruction, hindex]
  push_cast
  rw [add_zero]
  congr 1
  ring

theorem _GetSpecializedCacheEntry_eq (first_instr n : Int) (hfirst : isAddr first_instr)
    (hn : 0 ≤ n) (hfit : (n + 1) * 8 ≤ first_instr) :
    _GetSpecializedCacheEntry first_instr n = first_instr - (n + 1) * 8 := by
  unfold isAddr at hfirst
  have hssize : isSsize n := by
    unfold isSsize PY_SSIZE_T_MIN PY_SSIZE_T_MAX
    omega
  rw [_GetSpecializedCacheEntry_wrap first_instr n hssize]
  unfold wrapAddr
  omega

theorem _GetSpecializedCacheEntry_assert_holds (first_instr : Int) (hfirst : isAddr first_instr) :
    _GetSpecializedCacheEntry_assert first_instr = true := by
  unfold isAddr at hfirst
  simp only [_GetSpecializedCacheEntry_assert, ptrIndex, wrapAddr, zero_mul, add_zero,
    beq_iff_eq]
  omega

/-! ## Cache addressing: the oparg/offset pair -/

/-- C1: for every first-instruction address, every `int` `nexti >= 0` and every
`int` slot offset, looking up the entry at run time with the oparg that
`oparg_from_offset_and_nexti(offset, nexti)` computed at quickening time gives
exactly the entry `_GetSpecializedCacheEntry(first_instr, offset)`. -/
theorem lookup_for_instruction_returns_chosen_slot (first_instr offset nexti : Int)
    (hoffset : isInt offset) (_hnexti : isInt nexti) (_hnonneg : 0 ≤ nexti) :
    _GetSpecializedCacheEntryForInstruction first_instr nexti
        (oparg_from_offset_and_nexti offset nexti)
      = _GetSpecializedCacheEntry first_instr offset := by
  have hround : offset_from_oparg_and_nexti (oparg_from_offset_and_nexti offset nexti) nexti
      = offset := by
    unfold isInt INT_MIN INT_MAX at hoffset
    simp only [offset_from_oparg_and_nexti, oparg_from_offset_and_nexti, wrapInt,
      shiftRight_one_eq_div]
    omega
  unfold _GetSpecializedCacheEntryForInstruction
  rw [hround]

theorem lookup_for_instruction_returns_chosen_slot_witness :
    _GetSpecializedCacheEntryForInstruction 4096 11 (oparg_from_offset_and_nexti 7 11)
      = _GetSpecializedCacheEntry 4096 7 :=
  lookup_for_instruction_returns_chosen_slot 4096 7 11 (by decide) (by decide) (by decide)

/-- C2: for every oparg in [0,255] and every `int` `nexti >= 0`, neither the sum
`(nexti>>1)+oparg` nor the following difference overflows an `int`, and
`oparg_from_offset_and_nexti(offset_from_oparg_and_nexti(oparg, nexti), nexti)`
is `oparg`. -/
theorem oparg_of_offset_of_oparg (oparg nexti : Int)
    (hoparg : 0 ≤ oparg ∧ oparg ≤ 255) (hnexti : isInt nexti) (hnonneg : 0 ≤ nexti) :
    isInt ((nexti >>> (1 : Nat)) + oparg)
      ∧ isInt (offset_from_oparg_and_nexti oparg nexti - (nexti >>> (1 : Nat)))
      ∧ oparg_from_offset_and_nexti (offset_from_oparg_and_nexti oparg nexti) nexti = oparg := by
  unfold isInt INT_MIN INT_MAX at *
  simp only [offset_from_oparg_and_nexti, oparg_from_offset_and_nexti, wrapInt,
    shiftRight_one_eq_div]
  omega

theorem oparg_of_offset_of_oparg_witness :
    isInt (((2147483647 : Int) >>> (1 : Nat)) + 255)
      ∧ isInt (offset_from_oparg_and_nexti 255 2147483647 - ((2147483647 : Int) >>> (1 : Nat)))
      ∧ oparg_from_offset_and_nexti (offset_from_oparg_and_nexti 255 2147483647) 2147483647
          = 255 :=
  oparg_of_offset_of_oparg 255 2147483647 (by decide) (by decide) (by decide)

/-- C3: for every `int` `nexti >= 0` and every `int` `offset >= 0`,
`offset_from_oparg_and_nexti(oparg_from_offset_and_nexti(offset, nexti), nexti)`
is `offset`, and the three values satisfy `offset == (nexti >> 1) + oparg`
exactly. -/
theorem offset_of_oparg_of_offset (offset nexti : Int)
    (hoffset : isInt offset) (hoffset0 : 0 ≤ offset)
    (hnexti : isInt nexti) (hnonneg : 0 ≤ nexti) :
    offset_from_oparg_and_nexti (oparg_from_offset_and_nexti offset nexti) nexti = offset
      ∧ offset = (nexti >>> (1 : Nat)) + oparg_from_offset_and_nexti offset nexti := by
  unfold isInt INT_MIN INT_MAX at *
  simp only [offset_from_oparg_and_nexti, oparg_from_offset_and_nexti, wrapInt,
    shiftRight_one_eq_div]
  omega

theorem offset_of_oparg_of_offset_witness :
    offset_from_oparg_and_nexti (oparg_from_offset_and_nexti 3 2147483647) 2147483647 = 3
      ∧ (3 : Int) = ((2147483647 : Int) >>> (1 : Nat)) + oparg_from_offset_and_nexti 3 2147483647 :=
  offset_of_oparg_of_offset 3 2147483647 (by decide) (by decide) (by decide) (by decide)

/-! ## Cache addressing: slot addresses -/

/-- C4: for every first-instruction address and every slot index `n >= 0`,
`_GetSpecializedCacheEntry(first_instr, n)` is the address
`first_instr - (n+1) * 8` of pointer arithmetic; for a slot lying in the address
space below `first_instr`, that is exactly `first_instr - (n+1) * 8`, the
address `4*(n+1)` instruction units before instruction 0, and slot 0 is
`sizeof(SpecializedCacheEntry) = 8` bytes below `first_instr`. -/
theorem slot_address_formula (first_instr n : Int) (hfirst : isAddr first_instr)
    (hn : 0 ≤ n) (hssize : n ≤ PY_SSIZE_T_MAX) :
    _GetSpecializedCacheEntry first_instr n = wrapAddr (first_instr - (n + 1) * 8)
      ∧ ((n + 1) * 8 ≤ first_instr →
          _GetSpecializedCacheEntry first_instr n = first_instr - (n + 1) * 8
            ∧ _GetSpecializedCacheEntry first_instr n
                = ptrIndex _Py_CODEUNIT first_instr (-(4 * (n + 1)))
            ∧ _GetSpecializedCacheEntry first_instr 0
                = first_instr - (SpecializedCacheEntry.size : Int))
      ∧ SpecializedCacheEntry.size = 8 := by
  have hrange : isSsize n := by
    unfold isSsize PY_SSIZE_T_MIN
    exact ⟨by omega, hssize⟩
  refine ⟨_GetSpecializedCacheEntry_wrap first_instr n hrange, ?_, sizeof_SpecializedCacheEntry⟩
  intro hfit
  have haddr := _GetSpecializedCacheEntry_eq first_instr n hfirst hn hfit
  refine ⟨haddr, ?_, ?_⟩
  · rw [haddr]
    unfold isAddr at hfirst
    simp only [ptrIndex, _Py_CODEUNIT, uint16_t, wrapAddr]
    push_cast
    omega
  · rw [_GetSpecializedCacheEntry_eq first_instr 0 hfirst (le_refl 0) (by omega),
      sizeof_SpecializedCacheEntry]
    norm_num

theorem slot_address_formula_witness :
    _GetSpecializedCacheEntry 4096 2 = 4096 - (2 + 1) * 8
      ∧ _GetSpecializedCacheEntry 4096 2 = ptrIndex _Py_CODEUNIT 4096 (-(4 * (2 + 1)))
      ∧ _GetSpecializedCacheEntry 4096 0 = 4096 - (SpecializedCacheEntry.size : Int) :=
  (slot_address_formula 4096 2 (by decide) (by decide) (by decide)).2.1 (by decide)

/-- C5: for a first-instruction address with a cache block of `cache_count`
entries below it and slot indices `0 <= n, m < cache_count`: if `n < m` then
slot `m` is at a strictly lower address than slot `n`, and the two slots have
the same address only if `n = m`. -/
theorem slot_address_strictly_decreasing (first_instr cache_count n m : Int)
    (hfirst : isAddr first_instr) (hblock : 8 * cache_count ≤ first_instr)
    (hn : 0 ≤ n) (hm : 0 ≤ m) (hnc : n < cache_count) (hmc : m < cache_count) :
    (n < m → _GetSpecializedCacheEntry first_instr m < _GetSpecializedCacheEntry first_instr n)
      ∧ (_GetSpecializedCacheEntry first_instr n = _GetSpecializedCacheEntry first_instr m
          → n = m) := by
  rw [_GetSpecializedCacheEntry_eq first_instr n hfirst hn (by omega),
    _GetSpecializedCacheEntry_eq first_instr m hfirst hm (by omega)]
  constructor <;> intro h <;> omega

theorem slot_address_strictly_decreasing_witness :
    ((1 : Int) < 3 → _GetSpecializedCacheEntry 4096 3 < _GetSpecializedCacheEntry 4096 1)
      ∧ (_GetSpecializedCacheEntry 4096 1 = _GetSpecializedCacheEntry 4096 3 → (1 : Int) = 3) :=
  slot_address_strictly_decreasing 4096 4 1 3 (by decide) (by decide) (by decide) (by decide)
    (by decide) (by decide)

/-- C6: for every `cache_count >= 1` and first-instruction address with room
for the cache block below it, the slots `0 .. cache_count-1` tile the block:
slot `n+1` starts 8 bytes below slot `n`, slot 0 ends at `first_instr`, slot
`cache_count-1` is the lowest, at `first_instr - 8 * cache_count`, a byte lies
in some slot exactly when it lies in
`[first_instr - 8 * cache_count, first_instr)`, and no byte lies in two
slots. -/
theorem slots_tile_cache_block (first_instr cache_count : Int) (hfirst : isAddr first_instr)
    (hcount : 1 ≤ cache_count) (hblock : 8 * cache_count ≤ first_instr) :
    (∀ n : Int, 0 ≤ n → n + 1 < cache_count →
        _GetSpecializedCacheEntry first_instr (n + 1)
          = _GetSpecializedCacheEntry first_instr n - 8)
      ∧ _GetSpecializedCacheEntry first_instr 0 + (SpecializedCacheEntry.size : Int)
          = first_instr
      ∧ _GetSpecializedCacheEntry first_instr (cache_count - 1)
          = first_instr - 8 * cache_count
      ∧ (∀ n : Int, 0 ≤ n → n < cache_count →
          _GetSpecializedCacheEntry first_instr (cache_count - 1)
            ≤ _GetSpecializedCacheEntry first_instr n)
      ∧ (∀ b : Int,
          (∃ n : Int, 0 ≤ n ∧ n < cache_count
              ∧ _GetSpecializedCacheEntry first_instr n ≤ b
              ∧ b < _GetSpecializedCacheEntry first_instr n + (SpecializedCacheEntry.size : Int))
            ↔ (first_instr - 8 * cache_count ≤ b ∧ b < first_instr))
      ∧ (∀ b n m : Int, 0 ≤ n → n < cache_count → 0 ≤ m → m < cache_count →
          _GetSpecializedCacheEntry first_instr n ≤ b
            → b < _GetSpecializedCacheEntry first_instr n + (SpecializedCacheEntry.size : Int)
            → _GetSpecializedCacheEntry first_instr m ≤ b
            → b < _GetSpecializedCacheEntry first_instr m + (SpecializedCacheEntry.size : Int)
            → n = m) := by
  have haddr : ∀ n : Int, 0 ≤ n → n < cache_count →
      _GetSpecializedCacheEntry first_instr n = first_instr - (n + 1) * 8 := by
    intro n h0 h1
    exact _GetSpecializedCacheEntry_eq first_instr n hfirst h0 (by omega)
  rw [sizeof_SpecializedCacheEntry]
  push_cast
  refine ⟨?_, ?_, ?_, ?_, ?_, ?_⟩
  · intro n h0 h1
    rw [haddr (n + 1) (by omega) h1, haddr n h0 (by omega)]
    ring
  · rw [haddr 0 (le_refl 0) (by omega)]
    ring
  · rw [haddr (cache_count - 1) (by omega) (by omega)]
    ring
  · intro n h0 h1
    rw [haddr (cache_count - 1) (by omega) (by omega), haddr n h0 h1]
    omega
  · intro b
    constructor
    · rintro ⟨n, h0, h1, h2, h3⟩
      rw [haddr n h0 h1] at h2 h3
      omega
    · rintro ⟨h1, h2⟩
      have hq0 : 0 ≤ (first_instr - 1 - b) / 8 := by omega
      have hq1 : (first_instr - 1 - b) / 8 < cache_count := by omega
      refine ⟨(first_instr - 1 - b) / 8, hq0, hq1, ?_, ?_⟩
      · rw [haddr _ hq0 hq1]
        omega
      · rw [haddr _ hq0 hq1]
        omega
  · intro b n m hn0 hn1 hm0 hm1 h1 h2 h3 h4
    rw [haddr n hn0 hn1] at h1 h2
    rw [haddr m hm0 hm1] at h3 h4
    omega

theorem slots_tile_cache_block_witness :
    _GetSpecializedCacheEntry 4096 0 + (SpecializedCacheEntry.size : Int) = 4096
      ∧ _GetSpecializedCacheEntry 4096 (3 - 1) = 4096 - 8 * 3 :=
  ⟨(slots_tile_cache_block 4096 3 (by decide) (by decide) (by decide)).2.1,
   (slots_tile_cache_block 4096 3 (by decide) (by decide) (by decide)).2.2.1⟩

/-! ## Sizes of the cache entry types -/

/-- C7: `sizeof(SpecializedCacheEntry)` is 8 bytes, the larger of its members
`_PyEntryZero` (4+4 bytes) and `_PyAdaptiveEntry` (1+1+2 bytes); it is 4 times
the size of the 2-byte instruction unit, so `INSTRUCTIONS_PER_ENTRY` is 4; and
`sizeof(SpecializedCacheOrInstruction)` is 8. -/
theorem cache_entry_sizes :
    SpecializedCacheEntry.size = 8
      ∧ _PyEntryZero.size = 4 + 4
      ∧ _PyAdaptiveEntry.size = 1 + 1 + 2
      ∧ SpecializedCacheEntry.size = max _PyEntryZero.size _PyAdaptiveEntry.size
      ∧ _Py_CODEUNIT.size = 2
      ∧ SpecializedCacheEntry.size = 4 * _Py_CODEUNIT.size
      ∧ INSTRUCTIONS_PER_ENTRY = 4
      ∧ SpecializedCacheOrInstruction.size = 8 := by
  decide

/-! ## Warmup counter -/

theorem wrapInt_isInt (x : Int) : isInt (wrapInt x) := by
  unfold isInt INT_MIN INT_MAX wrapInt
  omega

theorem wrapInt_succ_wrapInt (x : Int) : wrapInt (wrapInt x + 1) = wrapInt (x + 1) := by
  unfold wrapInt
  omega

theorem incrementWarmupTimes_eq (k : Nat) (co : PyCodeObject) (h : isInt co.co_warmup) :
    incrementWarmupTimes k co = { co with co_warmup := wrapInt (co.co_warmup + k) } := by
  induction k generalizing co with
  | zero =>
    simp only [incrementWarmupTimes, Nat.cast_zero, add_zero, wrapInt_of_isInt _ h]
  | succ k ih =>
    have hstep : isInt (PyCodeObject_IncrementWarmup co).co_warmup := wrapInt_isInt _
    rw [incrementWarmupTimes, ih _ hstep]
    have harith : wrapInt (wrapInt (co.co_warmup + 1) + (k : Int))
        = wrapInt (co.co_warmup + ((k + 1 : Nat) : Int)) := by
      unfold wrapInt
      push_cast
      omega
    simp only [PyCodeObject_IncrementWarmup, harith]

theorem isWarmedUp_after (k : Nat) (co : PyCodeObject)
    (h : co.co_warmup = QUICKENING_INITIAL_WARMUP_VALUE) :
    (PyCodeObject_IsWarmedUp (incrementWarmupTimes k co)).1 = 1 ↔ k % 4294967296 = 8 := by
  have hint : isInt co.co_warmup := by rw [h]; decide
  rw [incrementWarmupTimes_eq k co hint, h]
  simp only [PyCodeObject_IsWarmedUp, QUICKENING_INITIAL_WARMUP_VALUE, QUICKENING_WARMUP_DELAY,
    wrapInt]
  constructor
  · intro hw
    split at hw
    · omega
    · omega
  · intro hk
    rw [if_pos (by omega)]

/-- C8, as stated, fails: started at `QUICKENING_INITIAL_WARMUP_VALUE`, the
counter is 0 again after 2^32 + 8 increments, so `PyCodeObject_IsWarmedUp`
holds for a number of calls other than 8. -/
theorem warmed_up_again_after_wraparound :
    ¬ ((PyCodeObject_IsWarmedUp (incrementWarmupTimes 4294967304 coldCode)).1 = 1
        ↔ 4294967304 = 8) := by
  intro hiff
  have hwarm : (PyCodeObject_IsWarmedUp (incrementWarmupTimes 4294967304 coldCode)).1 = 1 :=
    (isWarmedUp_after 4294967304 coldCode rfl).2 (by norm_num)
  have habs := hiff.1 hwarm
  omega

/-- C8, amended: started at `QUICKENING_INITIAL_WARMUP_VALUE = -QUICKENING_WARMUP_DELAY
= -8`, after `k` calls of `PyCodeObject_IncrementWarmup` the predicate
`PyCodeObject_IsWarmedUp` holds exactly when `k` is 8 modulo 2^32; so it is
false after each of the first 7 increments, true after the 8th, when the
counter is 0, and false after each later one up to the `2^32 + 7`-th. -/
theorem warmed_up_iff_eighth_call (k : Nat) (co : PyCodeObject)
    (hstart : co.co_warmup = QUICKENING_INITIAL_WARMUP_VALUE) :
    QUICKENING_INITIAL_WARMUP_VALUE = -8
      ∧ ((PyCodeObject_IsWarmedUp (incrementWarmupTimes k co)).1 = 1 ↔ k % 4294967296 = 8)
      ∧ (k < 4294967304 →
          ((PyCodeObject_IsWarmedUp (incrementWarmupTimes k co)).1 = 1 ↔ k = 8))
      ∧ (incrementWarmupTimes 8 co).co_warmup = 0 := by
  refine ⟨by decide, isWarmedUp_after k co hstart, ?_, ?_⟩
  · intro hk
    rw [isWarmedUp_after k co hstart]
    omega
  · have hint : isInt co.co_warmup := by rw [hstart]; decide
    rw [incrementWarmupTimes_eq 8 co hint, hstart]
    show wrapInt (QUICKENING_INITIAL_WARMUP_VALUE + ((8 : Nat) : Int)) = 0
    decide

theorem warmed_up_iff_eighth_call_witness :
    QUICKENING_INITIAL_WARMUP_VALUE = -8
      ∧ ((PyCodeObject_IsWarmedUp (incrementWarmupTimes 7 coldCode)).1 = 1
          ↔ 7 % 4294967296 = 8)
      ∧ (7 < 4294967304 →
          ((PyCodeObject_IsWarmedUp (incrementWarmupTimes 7 coldCode)).1 = 1 ↔ 7 = 8))
      ∧ (incrementWarmupTimes 8 coldCode).co_warmup = 0 :=
  warmed_up_iff_eighth_call 7 coldCode rfl

theorem PyMem_NEW_kinds (num : Int) (s : PyState) (hint : isInt num) (hpos : 0 < num) :
    PyMem_NEW _PyLocalsPlusKind num s = PyMem_Malloc num.toNat s := by
  unfold isInt INT_MIN INT_MAX at hint
  have hsize : ((_PyLocalsPlusKind.size : Nat) : Int) = 1 := rfl
  have hguard : ¬ (num < 0 ∨ num > PY_SSIZE_T_MAX / ((_PyLocalsPlusKind.size : Nat) : Int)) := by
    rw [hsize]
    unfold PY_SSIZE_T_MAX
    omega
  unfold PyMem_NEW
  rw [if_neg hguard]
  simp only [_PyLocalsPlusKind, Nat.mul_one]

theorem init_locals_plus_kinds_served (num : Int) (pkinds : Option Nat) (s : PyState)
    (hint : isInt num) (hpos : 0 < num) (hfit : num.toNat ≤ s.mem_avail) :
    _PyCode_InitLocalsPlusKinds num pkinds s
      = (0, some s.next_addr,
          { s with malloc_calls := num.toNat :: s.malloc_calls,
                   mem_avail := s.mem_avail - num.toNat,
                   next_addr := s.next_addr + num.toNat,
                   live := (s.next_addr, num.toNat) :: s.live }) := by
  have hne : num ≠ 0 := ne_of_gt hpos
  have hsize : num.toNat ≠ 0 := by omega
  unfold _PyCode_InitLocalsPlusKinds
  rw [if_neg hne, PyMem_NEW_kinds num s hint hpos]
  simp only [PyMem_Malloc, if_neg hsize, if_pos hfit]

theorem init_locals_plus_kinds_failed (num : Int) (pkinds : Option Nat) (s : PyState)
    (hint : isInt num) (hpos : 0 < num) (hfail : s.mem_avail < num.toNat) :
    _PyCode_InitLocalsPlusKinds num pkinds s
      = (-1, pkinds,
          { s with malloc_calls := num.toNat :: s.malloc_calls,
                   err := some PyExc.MemoryError }) := by
  have hne : num ≠ 0 := ne_of_gt hpos
  have hsize : num.toNat ≠ 0 := by omega
  have hfit : ¬ num.toNat ≤ s.mem_avail := by omega
  unfold _PyCode_InitLocalsPlusKinds
  rw [if_neg hne, PyMem_NEW_kinds num s hint hpos]
  simp only [PyMem_Malloc, if_neg hsize, if_neg hfit, PyErr_NoMemory]

/-- C10: `_PyCode_InitLocalsPlusKinds(num, pkinds)` with `num == 0` returns 0,
sets `*pkinds` to NULL and leaves the state as it was, with no request to the
allocator. With `num > 0` it makes exactly one request, for `num` kind
entries; when the allocator serves it, the call returns 0 with `*pkinds`
the new block of `num` bytes and no error set by the call; when the allocator
fails, and only then, it returns -1 with the out-of-memory error set,
`*pkinds` as it was and the set of allocated blocks as it was. -/
theorem init_locals_plus_kinds_outcomes (num : Int) (pkinds : Option Nat) (s : PyState)
    (hint : isInt num) :
    (num = 0 → _PyCode_InitLocalsPlusKinds num pkinds s = (0, none, s))
      ∧ (0 < num →
          (_PyCode_InitLocalsPlusKinds num pkinds s).2.2.malloc_calls
              = (num.toNat * _PyLocalsPlusKind.size) :: s.malloc_calls
            ∧ (num.toNat ≤ s.mem_avail →
                (_PyCode_InitLocalsPlusKinds num pkinds s).1 = 0
                  ∧ (_PyCode_InitLocalsPlusKinds num pkinds s).2.1 = some s.next_addr
                  ∧ (_PyCode_InitLocalsPlusKinds num pkinds s).2.2.live
                      = (s.next_addr, num.toNat) :: s.live
                  ∧ (_PyCode_InitLocalsPlusKinds num pkinds s).2.2.err = s.err)
            ∧ (s.mem_avail < num.toNat →
                (_PyCode_InitLocalsPlusKinds num pkinds s).1 = -1
                  ∧ (_PyCode_InitLocalsPlusKinds num pkinds s).2.1 = pkinds
                  ∧ (_PyCode_InitLocalsPlusKinds num pkinds s).2.2.err
                      = some PyExc.MemoryError
                  ∧ (_PyCode_InitLocalsPlusKinds num pkinds s).2.2.live = s.live
                  ∧ (_PyCode_InitLocalsPlusKinds num pkinds s).2.2.mem_avail = s.mem_avail)
            ∧ ((_PyCode_InitLocalsPlusKinds num pkinds s).1 = -1
                ↔ (PyMem_NEW _PyLocalsPlusKind num s).1 = none)
            ∧ ((_PyCode_InitLocalsPlusKinds num pkinds s).1 = 0
                ↔ (_PyCode_InitLocalsPlusKinds num pkinds s).2.1
                    = (PyMem_NEW _PyLocalsPlusKind num s).1
                  ∧ (PyMem_NEW _PyLocalsPlusKind num s).1 ≠ none)) := by
  constructor
  · intro h0
    simp [_PyCode_InitLocalsPlusKinds, h0]
  · intro hpos
    have hsize : num.toNat ≠ 0 := by omega
    have hone : num.toNat * _PyLocalsPlusKind.size = num.toNat := Nat.mul_one _
    rw [PyMem_NEW_kinds num s hint hpos, hone]
    by_cases hfit : num.toNat ≤ s.mem_avail
    · have hnot : ¬ s.mem_avail < num.toNat := by omega
      rw [init_locals_plus_kinds_served num pkinds s hint hpos hfit]
      simp [PyMem_Malloc, hsize, hfit, hnot]
    · have hlt : s.mem_avail < num.toNat := by omega
      rw [init_locals_plus_kinds_failed num pkinds s hint hpos hlt]
      simp [PyMem_Malloc, hsize, hfit, hlt]

theorem init_locals_plus_kinds_outcomes_witness :
    _PyCode_InitLocalsPlusKinds 0 (some 7) smallState = (0, none, smallState)
      ∧ (_PyCode_InitLocalsPlusKinds 5 (some 7) smallState).1 = 0
      ∧ (_PyCode_InitLocalsPlusKinds 5 (some 7) smallState).2.1 = some 65536
      ∧ (_PyCode_InitLocalsPlusKinds 65 (some 7) smallState).1 = -1
      ∧ (_PyCode_InitLocalsPlusKinds 65 (some 7) smallState).2.1 = some 7 :=
  ⟨(init_locals_plus_kinds_outcomes 0 (some 7) smallState (by decide)).1 rfl,
   ((init_locals_plus_kinds_outcomes 5 (some 7) smallState (by decide)).2
      (by decide)).2.1 (by decide) |>.1,
   ((init_locals_plus_kinds_outcomes 5 (some 7) smallState (by decide)).2
      (by decide)).2.1 (by decide) |>.2.1,
   ((init_locals_plus_kinds_outcomes 65 (some 7) smallState (by decide)).2
      (by decide)).2.2.1 (by decide) |>.1,
   ((init_locals_plus_kinds_outcomes 65 (some 7) smallState (by decide)).2
      (by decide)).2.2.1 (by decide) |>.2.1⟩

/-! ## Cache addressing: reach of an instruction -/

/-- C14: for every `int` `nexti >= 0` and `offset >= 0`, the oparg computed by
`oparg_from_offset_and_nexti(offset, nexti)` lies in [0,255] exactly when
`(nexti >> 1) <= offset <= (nexti >> 1) + 255`; the slots an instruction at
`nexti` reaches with an oparg in [0,255] are exactly those 256 slots starting
at `nexti/2`; and a slot beyond `ninstr / 2 + 255` is reached by no
instruction of a code of `ninstr` instructions. -/
theorem oparg_fits_iff_offset_in_window (offset nexti : Int)
    (hoffset : isInt offset) (hoffset0 : 0 ≤ offset)
    (hnexti : isInt nexti) (hnonneg : 0 ≤ nexti) :
    ((0 ≤ oparg_from_offset_and_nexti offset nexti
          ∧ oparg_from_offset_and_nexti offset nexti ≤ 255)
        ↔ ((nexti >>> (1 : Nat)) ≤ offset ∧ offset ≤ (nexti >>> (1 : Nat)) + 255))
      ∧ ((∃ oparg : Int, 0 ≤ oparg ∧ oparg ≤ 255
              ∧ offset_from_oparg_and_nexti oparg nexti = offset)
          ↔ (nexti / 2 ≤ offset ∧ offset ≤ nexti / 2 + 255))
      ∧ (∀ ninstr : Int, isInt ninstr → nexti ≤ ninstr → ninstr / 2 + 255 < offset →
          ∀ oparg : Int, 0 ≤ oparg → oparg ≤ 255 →
            offset_from_oparg_and_nexti oparg nexti ≠ offset) := by
  unfold isInt INT_MIN INT_MAX at *
  simp only [offset_from_oparg_and_nexti, oparg_from_offset_and_nexti, wrapInt,
    shiftRight_one_eq_div]
  refine ⟨?_, ?_, ?_⟩
  · constructor <;> intro h <;> omega
  · constructor
    · rintro ⟨oparg, h0, h1, h2⟩
      omega
    · intro h
      refine ⟨offset - nexti / 2, ?_, ?_, ?_⟩ <;> omega
  · intro ninstr hninstr hle hbeyond oparg h0 h1
    omega

theorem oparg_fits_iff_offset_in_window_witness :
    ((0 ≤ oparg_from_offset_and_nexti 260 11 ∧ oparg_from_offset_and_nexti 260 11 ≤ 255)
        ↔ (((11 : Int) >>> (1 : Nat)) ≤ 260 ∧ (260 : Int) ≤ ((11 : Int) >>> (1 : Nat)) + 255))
      ∧ ((∃ oparg : Int, 0 ≤ oparg ∧ oparg ≤ 255
              ∧ offset_from_oparg_and_nexti oparg 11 = 260)
          ↔ ((11 : Int) / 2 ≤ 260 ∧ (260 : Int) ≤ 11 / 2 + 255))
      ∧ (∀ ninstr : Int, isInt ninstr → 11 ≤ ninstr → ninstr / 2 + 255 < 260 →
          ∀ oparg : Int, 0 ≤ oparg → oparg ≤ 255 →
            offset_from_oparg_and_nexti oparg 11 ≠ 260) :=
  oparg_fits_iff_offset_in_window 260 11 (by decide) (by decide) (by decide) (by decide)

/-- C17, as stated, fails: with `nexti = 2` and `oparg = INT_MAX`, both
non-negative, the sum `(nexti>>1)+oparg` overflows, the offset is negative and
the entry returned for it starts above `first_instr`; and with
`nexti = INT_MAX`, `oparg = 255` and `first_instr = 4096` the offset is
non-negative but the slot does not fit below `first_instr`, and the address
returned is again above `first_instr`. -/
theorem offset_negative_on_overflow :
    ¬ (0 ≤ offset_from_oparg_and_nexti 2147483647 2)
      ∧ 4096 < _GetSpecializedCacheEntryForInstruction 4096 2 2147483647
      ∧ 4096 < _GetSpecializedCacheEntryForInstruction 4096 2147483647 255 := by
  decide

/-- C17, amended: for every `int` `nexti >= 0` and `oparg >= 0` whose sum
`(nexti>>1)+oparg` does not overflow an `int`, as is the case for every oparg
in [0,255], `offset_from_oparg_and_nexti(oparg, nexti)` is `>= 0` and the index
`-1-n` used for it is `<= -1`; and when the slot of that offset lies in the
address space below `first_instr`, the entry returned by
`_GetSpecializedCacheEntryForInstruction` is at `first_instr - 8 * (offset + 1)`
and ends at or below `first_instr`. -/
theorem lookup_entry_below_first_instr (first_instr nexti oparg : Int)
    (hnexti : isInt nexti) (hnonneg : 0 ≤ nexti) (hoparg : 0 ≤ oparg)
    (hsum : oparg ≤ 255 ∨ (nexti >>> (1 : Nat)) + oparg ≤ INT_MAX) :
    0 ≤ offset_from_oparg_and_nexti oparg nexti
      ∧ wrapSsize (-1 - offset_from_oparg_and_nexti oparg nexti) ≤ -1
      ∧ (isAddr first_instr →
          (offset_from_oparg_and_nexti oparg nexti + 1) * 8 ≤ first_instr →
            _GetSpecializedCacheEntryForInstruction first_instr nexti oparg
                = first_instr - 8 * (offset_from_oparg_and_nexti oparg nexti + 1)
              ∧ 0 ≤ _GetSpecializedCacheEntryForInstruction first_instr nexti oparg
              ∧ _GetSpecializedCacheEntryForInstruction first_instr nexti oparg
                  + (SpecializedCacheEntry.size : Int) ≤ first_instr) := by
  have hoff : 0 ≤ offset_from_oparg_and_nexti oparg nexti
      ∧ offset_from_oparg_and_nexti oparg nexti ≤ 2147483647 := by
    unfold isInt INT_MIN INT_MAX at *
    simp only [offset_from_oparg_and_nexti, wrapInt, shiftRight_one_eq_div] at *
    omega
  refine ⟨hoff.1, ?_, ?_⟩
  · unfold wrapSsize
    omega
  · intro hfirst hfit
    unfold _GetSpecializedCacheEntryForInstruction
    rw [_GetSpecializedCacheEntry_eq first_instr _ hfirst hoff.1 hfit,
      sizeof_SpecializedCacheEntry]
    push_cast
    omega

theorem lookup_entry_below_first_instr_witness :
    _GetSpecializedCacheEntryForInstruction 4096 11 255
        = 4096 - 8 * (offset_from_oparg_and_nexti 255 11 + 1)
      ∧ 0 ≤ _GetSpecializedCacheEntryForInstruction 4096 11 255
      ∧ _GetSpecializedCacheEntryForInstruction 4096 11 255
          + (SpecializedCacheEntry.size : Int) ≤ 4096 :=
  (lookup_entry_below_first_instr 4096 11 255 (by decide) (by decide) (by decide)
    (Or.inl (by decide))).2.2 (by decide) (by decide)

/-! ## Cache addressing: neighbouring instructions -/

/-- C18, as stated, fails: with `oparg = INT_MAX` the offset computed for
`nexti = 2` is lower than the one computed for `nexti = 1`, so
`offset_from_oparg_and_nexti` is not non-decreasing in `nexti` for every
oparg. -/
theorem offset_decreases_on_overflow :
    ¬ (offset_from_oparg_and_nexti 2147483647 1
        ≤ offset_from_oparg_and_nexti 2147483647 (1 + 1)) := by
  decide

/-- C18, amended: for every even `int` `nexti >= 0` and every `int` oparg,
`offset_from_oparg_and_nexti(oparg, nexti)` equals
`offset_from_oparg_and_nexti(oparg, nexti + 1)`, so the two adjacent
instructions resolve to the same cache entry. Where `((nexti+1)>>1)+oparg` does
not overflow an `int`, as for every oparg up to 255, the offset for `nexti + 1`
is at least the offset for `nexti` and at most 1 more. Instructions at
`nexti < nexti2` get distinct entries only if their opargs differ by something
other than `(nexti >> 1) - (nexti2 >> 1)`. -/
theorem neighbouring_instructions_slots (first_instr oparg nexti : Int)
    (hoparg : isInt oparg) (hnexti : isInt nexti) (hnonneg : 0 ≤ nexti) :
    (nexti % 2 = 0 →
        offset_from_oparg_and_nexti oparg nexti = offset_from_oparg_and_nexti oparg (nexti + 1)
          ∧ _GetSpecializedCacheEntryForInstruction first_instr nexti oparg
              = _GetSpecializedCacheEntryForInstruction first_instr (nexti + 1) oparg)
      ∧ (nexti < INT_MAX →
          (oparg ≤ 255 ∨ ((nexti + 1) >>> (1 : Nat)) + oparg ≤ INT_MAX) →
            offset_from_oparg_and_nexti oparg nexti
                ≤ offset_from_oparg_and_nexti oparg (nexti + 1)
              ∧ offset_from_oparg_and_nexti oparg (nexti + 1)
                ≤ offset_from_oparg_and_nexti oparg nexti + 1)
      ∧ (∀ nexti2 oparg2 : Int, isInt nexti2 → isInt oparg2 → nexti < nexti2 →
          _GetSpecializedCacheEntryForInstruction first_instr nexti oparg
              ≠ _GetSpecializedCacheEntryForInstruction first_instr nexti2 oparg2 →
            oparg2 - oparg ≠ (nexti >>> (1 : Nat)) - (nexti2 >>> (1 : Nat))) := by
  unfold isInt INT_MIN INT_MAX at *
  refine ⟨?_, ?_, ?_⟩
  · intro heven
    have hoffset : offset_from_oparg_and_nexti oparg nexti
        = offset_from_oparg_and_nexti oparg (nexti + 1) := by
      have hshift : (nexti + 1) / 2 = nexti / 2 := by omega
      simp only [offset_from_oparg_and_nexti, shiftRight_one_eq_div, hshift]
    refine ⟨hoffset, ?_⟩
    unfold _GetSpecializedCacheEntryForInstruction
    rw [hoffset]
  · intro hlt hsum
    simp only [offset_from_oparg_and_nexti, wrapInt, shiftRight_one_eq_div] at *
    omega
  · intro nexti2 oparg2 _ _ _ hne hdiff
    apply hne
    have hsame : (nexti2 >>> (1 : Nat)) + oparg2 = (nexti >>> (1 : Nat)) + oparg := by
      omega
    simp only [_GetSpecializedCacheEntryForInstruction, offset_from_oparg_and_nexti, hsame]

theorem neighbouring_instructions_slots_witness :
    ((10 : Int) % 2 = 0 →
        offset_from_oparg_and_nexti 3 10 = offset_from_oparg_and_nexti 3 (10 + 1)
          ∧ _GetSpecializedCacheEntryForInstruction 4096 10 3
              = _GetSpecializedCacheEntryForInstruction 4096 (10 + 1) 3)
      ∧ ((10 : Int) < INT_MAX →
          ((3 : Int) ≤ 255 ∨ (((10 : Int) + 1) >>> (1 : Nat)) + 3 ≤ INT_MAX) →
            offset_from_oparg_and_nexti 3 10 ≤ offset_from_oparg_and_nexti 3 (10 + 1)
              ∧ offset_from_oparg_and_nexti 3 (10 + 1)
                ≤ offset_from_oparg_and_nexti 3 10 + 1)
      ∧ (∀ nexti2 oparg2 : Int, isInt nexti2 → isInt oparg2 → 10 < nexti2 →
          _GetSpecializedCacheEntryForInstruction 4096 10 3
              ≠ _GetSpecializedCacheEntryForInstruction 4096 nexti2 oparg2 →
            oparg2 - 3 ≠ ((10 : Int) >>> (1 : Nat)) - (nexti2 >>> (1 : Nat))) :=
  neighbouring_instructions_slots 4096 3 10 (by decide) (by decide) (by decide)

/-! ## Kind flags -/

/-- C15: `CO_FAST_LOCAL` (0x20), `CO_FAST_CELL` (0x40) and `CO_FAST_FREE` (0x80)
are single bits, pairwise disjoint; every bitwise-or of them is at most 0xFF;
LOCAL, CELL, LOCAL|CELL and FREE are four distinct values and
`FREE & (LOCAL|CELL) == 0`; and in any combination each flag is set exactly
when it was put in. -/
theorem kind_flags_independent :
    (CO_FAST_LOCAL = 0x20 ∧ CO_FAST_CELL = 0x40 ∧ CO_FAST_FREE = 0x80)
      ∧ (CO_FAST_LOCAL = 2 ^ 5 ∧ CO_FAST_CELL = 2 ^ 6 ∧ CO_FAST_FREE = 2 ^ 7)
      ∧ (CO_FAST_LOCAL &&& CO_FAST_CELL = 0 ∧ CO_FAST_LOCAL &&& CO_FAST_FREE = 0
          ∧ CO_FAST_CELL &&& CO_FAST_FREE = 0)
      ∧ (∀ l c f : Bool, kindOfFlags l c f ≤ 0xFF)
      ∧ [CO_FAST_LOCAL, CO_FAST_CELL, CO_FAST_LOCAL ||| CO_FAST_CELL, CO_FAST_FREE].Nodup
      ∧ CO_FAST_FREE &&& (CO_FAST_LOCAL ||| CO_FAST_CELL) = 0
      ∧ (∀ l c f : Bool,
          (kindOfFlags l c f &&& CO_FAST_LOCAL ≠ 0 ↔ l = true)
            ∧ (kindOfFlags l c f &&& CO_FAST_CELL ≠ 0 ↔ c = true)
            ∧ (kindOfFlags l c f &&& CO_FAST_FREE ≠ 0 ↔ f = true)) := by
  decide

/-! ## Biased and unbiased warmup counters -/

theorem unbiasedIncrementTimes_eq (k : Nat) (count : Int) (h : count ≤ 8) :
    unbiasedIncrementTimes k count = min (count + k) 8 := by
  induction k generalizing count with
  | zero => simp [unbiasedIncrementTimes, h]
  | succ k ih =>
    have hstep : unbiasedIncrement count ≤ 8 := by
      unfold unbiasedIncrement QUICKENING_WARMUP_DELAY
      split <;> omega
    rw [unbiasedIncrementTimes, ih _ hstep]
    unfold unbiasedIncrement QUICKENING_WARMUP_DELAY
    push_cast
    split <;> omega

theorem unbiasedIsWarmedUp_after (k : Nat) :
    unbiasedIsWarmedUp (unbiasedIncrementTimes k 0) = 1 ↔ 8 ≤ k := by
  rw [unbiasedIncrementTimes_eq k 0 (by decide)]
  unfold unbiasedIsWarmedUp QUICKENING_WARMUP_DELAY
  constructor
  · intro h
    split at h <;> omega
  · intro h
    rw [if_pos (by omega)]

/-- C16, as stated, fails: after 9 invocations the biased counter is 1, so
`PyCodeObject_IsWarmedUp` answers no, while the unbiased counter has saturated
at the threshold and answers yes. -/
theorem biased_and_unbiased_differ_after_ninth :
    (PyCodeObject_IsWarmedUp (incrementWarmupTimes 9 coldCode)).1
      ≠ unbiasedIsWarmedUp (unbiasedIncrementTimes 9 0) := by
  decide

/-- C16, amended: for every number `k <= QUICKENING_WARMUP_DELAY` of invocations
the biased counter, started at `-QUICKENING_WARMUP_DELAY` and tested with
`PyCodeObject_IsWarmedUp`, gives the same answer as the unbiased counter started
at 0, incremented with saturation at the threshold and compared against it:
no before the 8th invocation, yes at the 8th. From then on the unbiased counter
keeps answering yes, and the biased one answers yes only when `k` is 8 modulo
2^32. -/
theorem biased_agrees_with_unbiased_until_warm (k : Nat) (co : PyCodeObject)
    (hstart : co.co_warmup = QUICKENING_INITIAL_WARMUP_VALUE) :
    (k ≤ 8 →
        (PyCodeObject_IsWarmedUp (incrementWarmupTimes k co)).1
          = unbiasedIsWarmedUp (unbiasedIncrementTimes k 0))
      ∧ (unbiasedIsWarmedUp (unbiasedIncrementTimes k 0) = 1 ↔ 8 ≤ k)
      ∧ ((PyCodeObject_IsWarmedUp (incrementWarmupTimes k co)).1 = 1
          ↔ k % 4294967296 = 8) := by
  refine ⟨?_, unbiasedIsWarmedUp_after k, isWarmedUp_after k co hstart⟩
  intro hk
  have hb := isWarmedUp_after k co hstart
  have hu := unbiasedIsWarmedUp_after k
  have hbval : (PyCodeObject_IsWarmedUp (incrementWarmupTimes k co)).1 = 1
      ∨ (PyCodeObject_IsWarmedUp (incrementWarmupTimes k co)).1 = 0 := by
    unfold PyCodeObject_IsWarmedUp
    by_cases hz : (incrementWarmupTimes k co).co_warmup = 0 <;> simp [hz]
  have huval : unbiasedIsWarmedUp (unbiasedIncrementTimes k 0) = 1
      ∨ unbiasedIsWarmedUp (unbiasedIncrementTimes k 0) = 0 := by
    unfold unbiasedIsWarmedUp
    by_cases hz : QUICKENING_WARMUP_DELAY ≤ unbiasedIncrementTimes k 0 <;> simp [hz]
  rcases hbval with hb1 | hb0 <;> rcases huval with hu1 | hu0
  · rw [hb1, hu1]
  · have h8 : 8 ≤ k := by have := hb.1 hb1; omega
    have := hu.2 h8
    omega
  · have h8 : 8 ≤ k := hu.1 hu1
    have := hb.2 (by omega)
    omega
  · rw [hb0, hu0]

theorem biased_agrees_with_unbiased_until_warm_witness :
    (8 ≤ 8 →
        (PyCodeObject_IsWarmedUp (incrementWarmupTimes 8 coldCode)).1
          = unbiasedIsWarmedUp (unbiasedIncrementTimes 8 0))
      ∧ (unbiasedIsWarmedUp (unbiasedIncrementTimes 8 0) = 1 ↔ 8 ≤ 8)
      ∧ ((PyCodeObject_IsWarmedUp (incrementWarmupTimes 8 coldCode)).1 = 1
          ↔ 8 % 4294967296 = 8) :=
  biased_agrees_with_unbiased_until_warm 8 coldCode rfl

/-! ## Locals-plus kinds: contents and release -/

/-- C11, as stated, fails: in a state whose free memory holds zero bytes,
`_PyCode_InitLocalsPlusKinds(5, ...)` succeeds with a table at 65536 whose
first entry is 0, which is none of LOCAL, CELL, LOCAL|CELL, FREE. -/
theorem new_kinds_entries_need_not_be_valid :
    (_PyCode_InitLocalsPlusKinds 5 none smallState).1 = 0
      ∧ (_PyCode_InitLocalsPlusKinds 5 none smallState).2.1 = some 65536
      ∧ isValidKind
          (kindsEntry (_PyCode_InitLocalsPlusKinds 5 none smallState).2.2 65536 0) = false := by
  decide

/-- C11, amended: a kinds table constructed by `_PyCode_InitLocalsPlusKinds`
with `n > 0` (such as `n = 5`) that succeeds holds exactly `n` entries: the
call made one request, of `n` kind entries, and `*pkinds` is the newly
allocated block of exactly `n` entries. -/
theorem new_kinds_table_has_n_entries (num : Int) (pkinds : Option Nat)
    (s : PyState) (hint : isInt num) (hpos : 0 < num)
    (hsuccess : (_PyCode_InitLocalsPlusKinds num pkinds s).1 = 0) :
    ∃ kinds : Nat,
      (_PyCode_InitLocalsPlusKinds num pkinds s).2.1 = some kinds
        ∧ (_PyCode_InitLocalsPlusKinds num pkinds s).2.2.live
            = (kinds, num.toNat * _PyLocalsPlusKind.size) :: s.live
        ∧ (_PyCode_InitLocalsPlusKinds num pkinds s).2.2.malloc_calls
            = (num.toNat * _PyLocalsPlusKind.size) :: s.malloc_calls := by
  by_cases hfit : num.toNat ≤ s.mem_avail
  · refine ⟨s.next_addr, ?_, ?_, ?_⟩
    · rw [init_locals_plus_kinds_served num pkinds s hint hpos hfit]
    · rw [init_locals_plus_kinds_served num pkinds s hint hpos hfit]
      simp [_PyLocalsPlusKind]
    · rw [init_locals_plus_kinds_served num pkinds s hint hpos hfit]
      simp [_PyLocalsPlusKind]
  · have hfail : s.mem_avail < num.toNat := by omega
    rw [init_locals_plus_kinds_failed num pkinds s hint hpos hfail] at hsuccess
    simp at hsuccess

theorem new_kinds_table_has_n_entries_witness :
    ∃ kinds : Nat,
      (_PyCode_InitLocalsPlusKinds 5 none smallState).2.1 = some kinds
        ∧ (_PyCode_InitLocalsPlusKinds 5 none smallState).2.2.live
            = (kinds, (5 : Int).toNat * _PyLocalsPlusKind.size) :: smallState.live
        ∧ (_PyCode_InitLocalsPlusKinds 5 none smallState).2.2.malloc_calls
            = ((5 : Int).toNat * _PyLocalsPlusKind.size) :: smallState.malloc_calls :=
  new_kinds_table_has_n_entries 5 none smallState (by decide) (by decide) (by decide)

/-- C12: `_PyCode_ClearLocalsPlusKinds` called with the empty (NULL) table frees
nothing and leaves the state as it was, however many times it is called;
called with a non-empty table it makes exactly one call of `PyMem_Free`, on that
table, after which the table is no longer allocated and nothing else has
changed. -/
theorem clear_locals_plus_kinds_effect (k : Nat) (p : Nat) (s : PyState) :
    _PyCode_ClearLocalsPlusKinds none s = s
      ∧ Nat.iterate (_PyCode_ClearLocalsPlusKinds none) k s = s
      ∧ (Nat.iterate (_PyCode_ClearLocalsPlusKinds none) k s).free_calls = s.free_calls
      ∧ (_PyCode_ClearLocalsPlusKinds (some p) s).free_calls = p :: s.free_calls
      ∧ (∀ b ∈ (_PyCode_ClearLocalsPlusKinds (some p) s).live, b.1 ≠ p)
      ∧ (∀ b ∈ s.live, b.1 ≠ p → b ∈ (_PyCode_ClearLocalsPlusKinds (some p) s).live)
      ∧ (_PyCode_ClearLocalsPlusKinds (some p) s).malloc_calls = s.malloc_calls
      ∧ (_PyCode_ClearLocalsPlusKinds (some p) s).err = s.err
      ∧ (_PyCode_ClearLocalsPlusKinds (some p) s).mem = s.mem := by
  have hiter : Nat.iterate (_PyCode_ClearLocalsPlusKinds none) k s = s := by
    induction k with
    | zero => rfl
    | succ k ih =>
      rw [Function.iterate_succ_apply]
      exact ih
  refine ⟨rfl, hiter, by rw [hiter], rfl, ?_, ?_, rfl, rfl, rfl⟩
  · intro b hb
    simp only [_PyCode_ClearLocalsPlusKinds, PyMem_Free, List.mem_filter] at hb
    simpa using hb.2
  · intro b hb hne
    simp only [_PyCode_ClearLocalsPlusKinds, PyMem_Free, List.mem_filter]
    exact ⟨hb, by simpa using hne⟩

theorem clear_locals_plus_kinds_effect_witness :
    (_PyCode_ClearLocalsPlusKinds (some 65536) tableState).free_calls
        = 65536 :: tableState.free_calls
      ∧ (∀ b ∈ (_PyCode_ClearLocalsPlusKinds (some 65536) tableState).live, b.1 ≠ 65536) :=
  ⟨(clear_locals_plus_kinds_effect 3 65536 tableState).2.2.2.1,
   (clear_locals_plus_kinds_effect 3 65536 tableState).2.2.2.2.1⟩

/-! ## Code constructor -/

/-- C13: `_PyCode_Validate` and `_PyCode_New` reject every constructor record
that violates `0 <= posonlyargcount <= argcount` or whose
`argcount + kwonlyargcount` exceeds the number of LOCAL-kind entries, and no
code object is produced; so are rejected the record with `posonlyargcount=3,
argcount=2` and the record with `argcount=2, kwonlyargcount=1` and 2 LOCAL
entries. The record with `argcount=2, posonlyargcount=0, kwonlyargcount=0,
stacksize=4` and a consistent 2-entry table is accepted and gives a code object
whose warmup counter is -8. -/
theorem constructor_validation (con : _PyCodeConstructor) (s : PyState) :
    ((¬ (0 ≤ con.posonlyargcount ∧ con.posonlyargcount ≤ con.argcount)
          ∨ (countLocalKinds s con.localspluskinds (localsPlusLength con) : Int)
              < con.argcount + con.kwonlyargcount) →
        _PyCode_Validate con s = -1 ∧ _PyCode_New con s = none)
      ∧ (_PyCode_Validate { twoArgRecord with posonlyargcount := 3 } tableState = -1
          ∧ _PyCode_New { twoArgRecord with posonlyargcount := 3 } tableState = none)
      ∧ (countLocalKinds tableState twoArgRecord.localspluskinds
              (localsPlusLength twoArgRecord) = 2
          ∧ _PyCode_Validate { twoArgRecord with kwonlyargcount := 1 } tableState = -1
          ∧ _PyCode_New { twoArgRecord with kwonlyargcount := 1 } tableState = none)
      ∧ (_PyCode_Validate twoArgRecord tableState = 0
          ∧ ∃ co : PyCodeObject, _PyCode_New twoArgRecord tableState = some co
              ∧ co.co_warmup = -8 ∧ co.co_quickened = none) := by
  refine ⟨?_, by decide, by decide, by decide, ?_⟩
  · intro hbad
    have hinvalid : _PyCode_Validate con s = -1 := by
      unfold _PyCode_Validate
      rw [if_neg]
      rintro ⟨⟨h0, h1, h2⟩, _⟩
      rcases hbad with hbad | hbad
      · exact hbad ⟨h0, h1⟩
      · omega
    refine ⟨hinvalid, ?_⟩
    unfold _PyCode_New
    rw [hinvalid]
    rfl
  · exact ⟨{ coldCode with co_localspluskinds := some 65536 }, by decide, by decide,
      by decide⟩

theorem constructor_validation_witness :
    _PyCode_Validate { twoArgRecord with posonlyargcount := 3 } tableState = -1
      ∧ _PyCode_New { twoArgRecord with posonlyargcount := 3 } tableState = none :=
  (constructor_validation { twoArgRecord with posonlyargcount := 3 } tableState).1
    (Or.inl (by decide))

end PyCoreCode
